import Mathlib

/-!
# Verification of the sigstore-verifier bundle engine

Shallow embedding of the `sigstore-verifier` crate (automata-slsa-sigstore-verifier)
and proofs about the claims of its specification.

Modelling conventions:
* Rust byte slices / `Vec<u8>` become `List Nat` (values kept below 256 by the
  producing functions).
* `u64` / `i64` values become `Nat` / `Int`; where overflow is possible the
  reduction modulo `2^64` is written explicitly (release-profile wrapping
  semantics; with overflow checks the same operation panics, and in either
  case diverges from unbounded arithmetic).
* Fallible Rust functions returning `Result<T, E>` become `Except E T`.
* External crates (`sha2` is implemented concretely; `x509-parser`,
  `serde_json`'s text-level parser and the signature crates are abstracted as
  explicit oracle parameters, since their behaviour is not code of this
  repository).
* Code of the repository whose file is referenced but absent from the tree
  (`error.rs`, `verifier/subject.rs`, `verifier/signature.rs`,
  `crypto/signature.rs`, the one-argument `verify_certificate_chain` used by
  `lib.rs`) is modelled from the spec; each such definition says so in its
  doc comment.
-/

namespace Sigstore

/-- Byte strings: `Vec<u8>` / `&[u8]`. -/
abbrev Bytes := List Nat

/-! ## Error taxonomy

Modelled from the spec: `error.rs` is declared by `lib.rs` (`pub mod error`)
but its source file is not in the tree; the variants follow §7 of the spec
("Taxonomy (closed set)").  Fields that the Rust code carries as formatted
strings (`to_rfc3339`, `to_string`) are carried as the underlying values. -/

inductive TransparencyError where
  | noRekorEntry
  | inclusionProofFailed
  | invalidEntryHash
  | signedEntryTimestampInvalid
  | rekorFetchFailed
  deriving DecidableEq, Repr

inductive TimestampError where
  | rfc3161Parse (msg : String)
  | rfc3161NotSupported
  | invalidIntegratedTime
  | noTimestamp
  deriving DecidableEq, Repr

inductive CertificateError where
  | parseError (msg : String)
  | unknownIssuer (cn : String)
  | trustBundleFetch
  | chainVerificationFailed (msg : String)
  | signingTimeOutsideValidity (signingTime notBefore notAfter : Int)
  deriving DecidableEq, Repr

inductive VerificationError where
  | invalidBundleFormat (msg : String)
  | certificate (e : CertificateError)
  | timestamp (e : TimestampError)
  | transparency (e : TransparencyError)
  | invalidSignature
  | identityMismatch (expected actual : String)
  | subjectDigestMismatch (expected actual : String)
  deriving DecidableEq, Repr

/-! ## String helpers (modelling `str::starts_with` / `str::contains`) -/

/-- `needle.isPrefixOf hay` on character lists; models `str::starts_with`. -/
def listIsPfx : List Char → List Char → Bool
  | [], _ => true
  | _ :: _, [] => false
  | a :: as, b :: bs => a == b && listIsPfx as bs

/-- `str::starts_with` on strings. -/
def strStarts (s pfx : String) : Bool := listIsPfx pfx.toList s.toList

/-- Substring containment on character lists; models `str::contains`. -/
def listContainsSub (hay needle : List Char) : Bool :=
  match hay with
  | [] => needle.isEmpty
  | _ :: t => listIsPfx needle hay || listContainsSub t needle

/-- `str::contains(substring)` on strings. -/
def strContains (s sub : String) : Bool := listContainsSub s.toList sub.toList

/-! ## Base64 (the `base64` crate's `BASE64_STANDARD` engine)

Standard alphabet, canonical padding required, trailing bits must be zero. -/

/-- Value of one standard-alphabet base64 character. -/
def b64Val (c : Char) : Option Nat :=
  if 'A' ≤ c ∧ c ≤ 'Z' then some (c.toNat - 'A'.toNat)
  else if 'a' ≤ c ∧ c ≤ 'z' then some (c.toNat - 'a'.toNat + 26)
  else if '0' ≤ c ∧ c ≤ '9' then some (c.toNat - '0'.toNat + 52)
  else if c = '+' then some 62
  else if c = '/' then some 63
  else none

/-- Decode a 4-character base64 quantum (with possible trailing padding in the
last quantum).  Returns `none` on any malformed quantum. -/
def b64Quantum (isLast : Bool) : List Char → Option Bytes
  | [c0, c1, c2, c3] => do
    let v0 ← b64Val c0
    let v1 ← b64Val c1
    if c2 = '=' then
      -- "xx==": one output byte, only in the final quantum, low 4 bits zero
      if isLast ∧ c3 = '=' ∧ v1 % 16 = 0 then some [v0 * 4 + v1 / 16] else none
    else do
      let v2 ← b64Val c2
      if c3 = '=' then
        -- "xxx=": two output bytes, only in the final quantum, low 2 bits zero
        if isLast ∧ v2 % 4 = 0 then
          some [v0 * 4 + v1 / 16, v1 % 16 * 16 + v2 / 4]
        else none
      else do
        let v3 ← b64Val c3
        some [v0 * 4 + v1 / 16, v1 % 16 * 16 + v2 / 4, v2 % 4 * 64 + v3]
  | _ => none

/-- Decode the list of characters, 4 at a time. -/
def b64Chunks : List Char → Option Bytes
  | [] => some []
  | c0 :: c1 :: c2 :: c3 :: rest => do
    let bs ← b64Quantum (rest.isEmpty) [c0, c1, c2, c3]
    let tail ← b64Chunks rest
    some (bs ++ tail)
  | _ => none

/-- `BASE64_STANDARD.decode`: canonical padded standard base64. -/
def base64Decode (s : String) : Option Bytes := b64Chunks s.toList

/-- `parser::bundle::decode_base64`: decode failures become a
`VerificationError` (spec §4.1: "decoders fail with `InvalidBundleFormat`"). -/
def decode_base64 (s : String) : Except VerificationError Bytes :=
  match base64Decode s with
  | some bs => .ok bs
  | none => .error (.invalidBundleFormat "invalid base64")

/-! ## SHA-256 (the `sha2` crate, `crypto::hash::sha256`) -/

namespace SHA256

/-- 32-bit right rotation. -/
def rotr (x n : Nat) : Nat := ((x >>> n) ||| (x <<< (32 - n))) % 2 ^ 32

/-- Round constants (decimal rendering of the standard table). -/
def K : List Nat :=
  [1116352408, 1899447441, 3049323471, 3921009573, 961987163,
   1508970993, 2453635748, 2870763221, 3624381080, 310598401,
   607225278, 1426881987, 1925078388, 2162078206, 2614888103,
   3248222580, 3835390401, 4022224774, 264347078, 604807628,
   770255983, 1249150122, 1555081692, 1996064986, 2554220882,
   2821834349, 2952996808, 3210313671, 3336571891, 3584528711,
   113926993, 338241895, 666307205, 773529912, 1294757372,
   1396182291, 1695183700, 1986661051, 2177026350, 2456956037,
   2730485921, 2820302411, 3259730800, 3345764771, 3516065817,
   3600352804, 4094571909, 275423344, 430227734, 506948616,
   659060556, 883997877, 958139571, 1322822218, 1537002063,
   1747873779, 1955562222, 2024104815, 2227730452, 2361852424,
   2428436474, 2756734187, 3204031479, 3329325298]

/-- Initial hash state (decimal rendering). -/
def H0 : List Nat :=
  [1779033703, 3144134277, 1013904242, 2773480762,
   1359893119, 2600822924, 528734635, 1541459225]

/-- Split padded input into 32-bit big-endian words. -/
def toWords : Bytes → List Nat
  | b0 :: b1 :: b2 :: b3 :: rest =>
      (((b0 * 256 + b1) * 256 + b2) * 256 + b3) :: toWords rest
  | _ => []

/-- Message schedule extension: grow the 16 block words to 64. -/
def extend (w : List Nat) (t : Nat) : List Nat :=
  if h : t < 16 then w
  else
    let w := extend w (t - 1)
    let get (i : Nat) : Nat := w.getD i 0
    let s0 := (rotr (get (t - 15)) 7) ^^^ (rotr (get (t - 15)) 18) ^^^ (get (t - 15) >>> 3)
    let s1 := (rotr (get (t - 2)) 17) ^^^ (rotr (get (t - 2)) 19) ^^^ (get (t - 2) >>> 10)
    w ++ [(get (t - 16) + s0 + get (t - 7) + s1) % 2 ^ 32]
termination_by t

/-- One round of the compression function. -/
def round (st : List Nat) (kt wt : Nat) : List Nat :=
  match st with
  | [a, b, c, d, e, f, g, h] =>
    let s1 := (rotr e 6) ^^^ (rotr e 11) ^^^ (rotr e 25)
    let ch := (e &&& f) ^^^ ((2 ^ 32 - 1 - e) &&& g)
    let t1 := (h + s1 + ch + kt + wt) % 2 ^ 32
    let s0 := (rotr a 2) ^^^ (rotr a 13) ^^^ (rotr a 22)
    let mj := (a &&& b) ^^^ (a &&& c) ^^^ (b &&& c)
    let t2 := (s0 + mj) % 2 ^ 32
    [(t1 + t2) % 2 ^ 32, a, b, c, (d + t1) % 2 ^ 32, e, f, g]
  | st => st

/-- Compress one 64-byte block into the state. -/
def compress (st : List Nat) (block : Bytes) : List Nat :=
  let w := extend (toWords block) 63
  let fin := (List.zip K w).foldl (fun s kw => round s kw.1 kw.2) st
  (List.zip st fin).map (fun p => (p.1 + p.2) % 2 ^ 32)

/-- Split into 64-byte blocks. -/
def blocks : Bytes → List Bytes
  | [] => []
  | b :: bs => ((b :: bs).take 64) :: blocks ((b :: bs).drop 64)
  termination_by bs => bs.length
  decreasing_by
    simp only [List.drop_succ_cons, List.length_drop, List.length_cons]
    omega

/-- SHA-256 padding. -/
def pad (msg : Bytes) : Bytes :=
  let len := msg.length
  let zeros := (64 - (len + 9) % 64) % 64
  let lenBits := len * 8
  msg ++ 0x80 :: List.replicate zeros 0 ++
    [lenBits / 2 ^ 56 % 256, lenBits / 2 ^ 48 % 256, lenBits / 2 ^ 40 % 256,
     lenBits / 2 ^ 32 % 256, lenBits / 2 ^ 24 % 256, lenBits / 2 ^ 16 % 256,
     lenBits / 2 ^ 8 % 256, lenBits % 256]

/-- Serialize the final state to 32 bytes, big-endian. -/
def toBytes (st : List Nat) : Bytes :=
  st.flatMap (fun w => [w / 2 ^ 24 % 256, w / 2 ^ 16 % 256, w / 2 ^ 8 % 256, w % 256])

end SHA256

/-- `crypto::hash::sha256` (the `sha2` crate). -/
def sha256 (data : Bytes) : Bytes :=
  SHA256.toBytes ((SHA256.blocks (SHA256.pad data)).foldl SHA256.compress SHA256.H0)

/-! ## RFC 6962 Merkle inclusion verifier (`crypto/merkle.rs`) -/

/-- `crypto::merkle::compute_leaf_hash`: `SHA256(0x00 || data)`. -/
def compute_leaf_hash (data : Bytes) : Bytes := sha256 (0x00 :: data)

/-- The folding loop of `verify_inclusion_proof` (`crypto/merkle.rs:19-41`).
The Rust subtree size is a `u64`, so the successor `size + 1` is reduced
modulo `2^64` (release-profile wrapping; with overflow checks enabled the
addition would panic instead — in either case it is not the unbounded
`size + 1`). -/
def merkleFold (h : Bytes) (i n : Nat) : List Bytes → Except TransparencyError Bytes
  | [] => .ok h
  | p :: rest =>
    if n ≤ 1 then .error .inclusionProofFailed
    else
      let parent :=
        if i % 2 == 0 && i + 1 < n then sha256 (0x01 :: (h ++ p))
        else sha256 (0x01 :: (p ++ h))
      merkleFold parent (i / 2) ((n + 1) % 2 ^ 64 / 2) rest

/-- `crypto::merkle::verify_inclusion_proof`. -/
def verify_inclusion_proof (leaf_hash : Bytes) (log_index tree_size : Nat)
    (proof_hashes : List Bytes) (root_hash : Bytes) : Except TransparencyError Unit :=
  if log_index ≥ tree_size then .error .inclusionProofFailed
  else
    match merkleFold leaf_hash log_index tree_size proof_hashes with
    | .error e => .error e
    | .ok computed => if computed == root_hash then .ok () else .error .inclusionProofFailed

/-- The fold exactly as the claim words it: starting from `(h, i, n)`,
for each proof hash fail if `n ≤ 1`, hash left/right by parity and
`i+1 < n`, then `i := i/2` and `n := (n+1)/2` with **unbounded** `n + 1`.
This is the claim-side reference definition, written from the claim text. -/
def claimFold (h : Bytes) (i n : Nat) : List Bytes → Option Bytes
  | [] => some h
  | p :: rest =>
    if n ≤ 1 then none
    else
      let parent :=
        if i % 2 = 0 ∧ i + 1 < n then sha256 (0x01 :: (h ++ p))
        else sha256 (0x01 :: (p ++ h))
      claimFold parent (i / 2) ((n + 1) / 2) rest

/-- Acceptance exactly as the claim words it: `log_index < tree_size`, the
fold succeeds, and the final hash equals the root hash. -/
def claimAccepts (leaf_hash : Bytes) (log_index tree_size : Nat)
    (proof_hashes : List Bytes) (root_hash : Bytes) : Prop :=
  log_index < tree_size ∧ claimFold leaf_hash log_index tree_size proof_hashes = some root_hash

/-! ## Integer parsing (`str::parse::<u64>` / `str::parse::<i64>`) -/

/-- Value of a non-empty all-digit character list. -/
def digitsVal (cs : List Char) : Option Nat :=
  if cs.isEmpty then none
  else
    cs.foldl
      (fun acc c =>
        match acc with
        | none => none
        | some a => if '0' ≤ c ∧ c ≤ '9' then some (a * 10 + (c.toNat - '0'.toNat)) else none)
      (some 0)

/-- `str::parse::<u64>`: optional leading `+`, digits, value below `2^64`. -/
def parseU64 (s : String) : Option Nat :=
  let digits :=
    match s.toList with
    | '+' :: rest => digitsVal rest
    | cs => digitsVal cs
  match digits with
  | none => none
  | some n => if n < 2 ^ 64 then some n else none

/-- `str::parse::<i64>`: optional sign, digits, value in the `i64` range. -/
def parseI64 (s : String) : Option Int :=
  match s.toList with
  | '-' :: rest =>
    match digitsVal rest with
    | none => none
    | some n => if n ≤ 2 ^ 63 then some (-(n : Int)) else none
  | '+' :: rest =>
    match digitsVal rest with
    | none => none
    | some n => if n < 2 ^ 63 then some (n : Int) else none
  | cs =>
    match digitsVal cs with
    | none => none
    | some n => if n < 2 ^ 63 then some (n : Int) else none

/-! ## Timestamp parsing (`parser/timestamp.rs`) -/

/-- Modelled from the `chrono` crate (external): smallest Unix second accepted
by `DateTime::from_timestamp` (about 262,000 years before the epoch). No claim
depends on the exact value. -/
def chronoMinTs : Int := -8334601228800

/-- Modelled from the `chrono` crate (external): largest Unix second accepted
by `DateTime::from_timestamp`. No claim depends on the exact value. -/
def chronoMaxTs : Int := 8210266876799

/-- `parser::timestamp::parse_integrated_time`: parse the decimal string as
`i64` seconds, then `DateTime::from_timestamp(ts, 0)`; both failures are
`InvalidIntegratedTime`.  The resulting `DateTime<Utc>` is modelled by its
Unix seconds. -/
def parse_integrated_time (s : String) : Except TimestampError Int :=
  match parseI64 s with
  | none => .error .invalidIntegratedTime
  | some t =>
    if chronoMinTs ≤ t ∧ t ≤ chronoMaxTs then .ok t else .error .invalidIntegratedTime

/-! ## Bundle data model (`types/bundle.rs`)

Fields that none of the embedded functions read (`log_id`, `kind_version`,
`checkpoint`, the `payload_type` uses outside validation, …) are kept exactly
when some embedded function touches them and omitted otherwise. -/

structure Rfc3161Ts where
  signed_timestamp : String
  deriving DecidableEq, Repr

structure TimestampVerificationData where
  rfc3161_timestamps : Option (List Rfc3161Ts)
  deriving DecidableEq, Repr

structure BundleCertificate where
  raw_bytes : String
  deriving DecidableEq, Repr

structure InclusionPromise where
  signed_entry_timestamp : String
  deriving DecidableEq, Repr

structure InclusionProof where
  log_index : String
  root_hash : String
  tree_size : String
  hashes : List String
  deriving DecidableEq, Repr

structure TransparencyLogEntry where
  log_index : Option String
  integrated_time : String
  inclusion_promise : Option InclusionPromise
  inclusion_proof : Option InclusionProof
  canonicalized_body : String
  deriving DecidableEq, Repr

structure VerificationMaterial where
  timestamp_verification_data : Option TimestampVerificationData
  certificate : BundleCertificate
  tlog_entries : Option (List TransparencyLogEntry)
  deriving DecidableEq, Repr

structure DsseSignature where
  sig : String
  deriving DecidableEq, Repr

structure DsseEnvelope where
  payload : String
  payload_type : String
  signatures : List DsseSignature
  deriving DecidableEq, Repr

structure SigstoreBundle where
  media_type : String
  verification_material : VerificationMaterial
  dsse_envelope : DsseEnvelope
  deriving DecidableEq, Repr

/-! ## Bundle validation (`parser/bundle.rs::validate_bundle`) -/

/-- `parser::bundle::validate_bundle`. -/
def validate_bundle (bundle : SigstoreBundle) : Except VerificationError Unit :=
  if !(strStarts bundle.media_type "application/vnd.dev.sigstore.bundle") then
    .error (.invalidBundleFormat ("Unsupported media type: " ++ bundle.media_type))
  else if bundle.dsse_envelope.signatures.isEmpty then
    .error (.invalidBundleFormat "No signatures in DSSE envelope")
  else
    .ok ()

/-! ## Signing time (`verifier/timestamp.rs`) -/

/-- `verifier::timestamp::get_integrated_time`. -/
def get_integrated_time (entry : TransparencyLogEntry) : Except TimestampError Int :=
  parse_integrated_time entry.integrated_time

/-- `verifier::timestamp::get_signing_time`.  The RFC 3161 branch in the
source is inert: its whole body is commented out behind a
`TODO: Implement full RFC3161 parsing`, so the function falls through to the
first transparency-log entry's integrated time in every case. -/
def get_signing_time (bundle : SigstoreBundle) : Except VerificationError Int :=
  match bundle.verification_material.tlog_entries with
  | some (entry :: _) =>
    match get_integrated_time entry with
    | .ok t => .ok t
    | .error e => .error (.timestamp e)
  | _ => .error (.timestamp .noTimestamp)

/-- Leaf-certificate data used by the embedded functions.  `x509-parser`'s
`X509Certificate` is an external-crate structure; the embedding keeps the DER
bytes it was parsed from and the validity window in Unix seconds, which is all
the code under verification reads from it. -/
structure X509Cert where
  der : Bytes
  not_before : Int
  not_after : Int
  deriving DecidableEq, Repr

/-- `verifier::timestamp::verify_signing_time_in_validity`.  The Rust error
carries the three values formatted as strings; the embedding carries the
values themselves. -/
def verify_signing_time_in_validity (signing_time : Int) (cert : X509Cert) :
    Except CertificateError Unit :=
  if signing_time < cert.not_before ∨ signing_time > cert.not_after then
    .error (.signingTimeOutsideValidity signing_time cert.not_before cert.not_after)
  else
    .ok ()

/-! ## Transparency log (`verifier/transparency.rs`) -/

/-- Decode every base64 proof hash (the `for hash_b64 in &inclusion_proof.hashes`
loop). -/
def decodeHashes : List String → Option (List Bytes)
  | [] => some []
  | h :: rest =>
    match base64Decode h with
    | none => none
    | some bs =>
      match decodeHashes rest with
      | none => none
      | some tail => some (bs :: tail)

/-- The inclusion-proof branch of `verify_transparency_log`
(`verifier/transparency.rs:27-55`). -/
def checkInclusionProof (entry : TransparencyLogEntry) : Except VerificationError Unit :=
  match entry.inclusion_proof with
  | none => .ok ()
  | some ip =>
    match parseU64 ip.log_index with
    | none => .error (.transparency .invalidEntryHash)
    | some log_index =>
      match parseU64 ip.tree_size with
      | none => .error (.transparency .invalidEntryHash)
      | some tree_size =>
        match base64Decode ip.root_hash with
        | none => .error (.transparency .invalidEntryHash)
        | some root_hash =>
          match decodeHashes ip.hashes with
          | none => .error (.transparency .invalidEntryHash)
          | some proof_hashes =>
            match base64Decode entry.canonicalized_body with
            | none => .error (.transparency .invalidEntryHash)
            | some body =>
              match verify_inclusion_proof (compute_leaf_hash body) log_index tree_size
                  proof_hashes root_hash with
              | .ok _ => .ok ()
              | .error e => .error (.transparency e)

/-- The inclusion-promise branch of `verify_transparency_log`
(`verifier/transparency.rs:58-64`): the signed entry timestamp must base64
decode; its signature is not verified (acknowledged gap). -/
def checkInclusionPromise (entry : TransparencyLogEntry) : Except VerificationError Unit :=
  match entry.inclusion_promise with
  | none => .ok ()
  | some promise =>
    match base64Decode promise.signed_entry_timestamp with
    | none => .error (.transparency .signedEntryTimestampInvalid)
    | some _ => .ok ()

/-- `verifier::transparency::verify_transparency_log`. -/
def verify_transparency_log (bundle : SigstoreBundle) (skip_verification : Bool) :
    Except VerificationError Unit :=
  if skip_verification then .ok ()
  else
    match bundle.verification_material.tlog_entries with
    | none => .error (.transparency .noRekorEntry)
    | some [] => .error (.transparency .noRekorEntry)
    | some (entry :: _) =>
      match checkInclusionProof entry with
      | .error e => .error e
      | .ok _ => checkInclusionPromise entry

/-! ## Trust-root selector (`fetcher/jsonl/parser.rs`, `fetcher/jsonl/types.rs`)

`valid_for.start` / `valid_for.end` are RFC 3339 strings parsed fallibly
inside the selector with `parse_rfc3339_timestamp(...)?`
(`fetcher/jsonl/parser.rs:78,85`): a malformed string aborts the whole
selection.  Fields of `TrustedRoot` not read by
`select_certificate_authority` (`media_type`, `tlogs`, `ctlogs`, `subject`)
are omitted. -/

structure JsonlCertificate where
  raw_bytes : String
  deriving DecidableEq, Repr

structure JsonlCertChain where
  certificates : List JsonlCertificate
  deriving DecidableEq, Repr

/-- `valid_for` window: RFC 3339 timestamp strings as in the source
(`fetcher/jsonl/types.rs`); the Rust field `end` is rendered `endTime`. -/
structure ValidityPeriod where
  start : Option String
  endTime : Option String
  deriving DecidableEq, Repr

/-! ### RFC 3339 parsing (`chrono::DateTime::parse_from_rfc3339`, external)

The `chrono` crate is external code; `parseRfc3339` models its RFC 3339
grammar — `YYYY-MM-DD` `T`/`t` `HH:MM:SS` optional `.digits` then `Z`/`z` or
`±HH:MM` — followed by `.timestamp()`.  Exotic edges of the crate's grammar
(leap seconds are accepted and counted as second 59, as `.timestamp()` does)
are documented where modelled; no claim depends on them. -/

/-- Value of a decimal digit character. -/
def digitVal (c : Char) : Option Nat :=
  if '0' ≤ c ∧ c ≤ '9' then some (c.toNat - '0'.toNat) else none

/-- Two-digit field. -/
def parse2 : List Char → Option (Nat × List Char)
  | a :: b :: rest =>
    match digitVal a, digitVal b with
    | some x, some y => some (x * 10 + y, rest)
    | _, _ => none
  | _ => none

/-- Four-digit field. -/
def parse4 : List Char → Option (Nat × List Char)
  | a :: b :: c :: d :: rest =>
    match digitVal a, digitVal b, digitVal c, digitVal d with
    | some w, some x, some y, some z => some (((w * 10 + x) * 10 + y) * 10 + z, rest)
    | _, _, _, _ => none
  | _ => none

/-- Expect one literal character. -/
def expectChar (c : Char) : List Char → Option (List Char)
  | x :: rest => if x == c then some rest else none
  | [] => none

/-- Drop a leading run of digits. -/
def dropDigits : List Char → List Char
  | c :: rest => if '0' ≤ c ∧ c ≤ '9' then dropDigits rest else c :: rest
  | [] => []

/-- Optional fractional seconds: `.` followed by at least one digit. -/
def skipFrac : List Char → Option (List Char)
  | '.' :: rest =>
    match rest with
    | c :: _ => if '0' ≤ c ∧ c ≤ '9' then some (dropDigits rest) else none
    | [] => none
  | cs => some cs

/-- Timezone offset, consuming the whole remainder: `Z`, `z`, or `±HH:MM`
with hours ≤ 23 and minutes ≤ 59; the result is the offset in seconds. -/
def parseOffset : List Char → Option Int
  | ['Z'] => some 0
  | ['z'] => some 0
  | c :: rest =>
    if c = '+' ∨ c = '-' then
      match parse2 rest with
      | none => none
      | some (oh, rest2) =>
        match rest2 with
        | ':' :: rest3 =>
          match parse2 rest3 with
          | some (om, []) =>
            if oh ≤ 23 ∧ om ≤ 59 then
              some (if c = '-' then -((oh : Int) * 3600 + om * 60)
                    else (oh : Int) * 3600 + om * 60)
            else none
          | _ => none
        | _ => none
    else none
  | [] => none

/-- A (proleptic Gregorian) leap year. -/
def isLeapYear (y : Nat) : Bool :=
  y % 4 == 0 && (y % 100 != 0 || y % 400 == 0)

/-- Days in the given month. -/
def daysInMonth (y m : Nat) : Nat :=
  if m = 2 then (if isLeapYear y then 29 else 28)
  else if m = 4 ∨ m = 6 ∨ m = 9 ∨ m = 11 then 30
  else 31

/-- Days since 1970-01-01 of a civil date (Hinnant's algorithm), specialised
to the four-digit years the RFC 3339 grammar admits (`0000`–`9999`, so the
shifted year is at least `-1`). -/
def daysFromCivil (y m d : Int) : Int :=
  let yAdj := if m ≤ 2 then y - 1 else y
  let era := if yAdj < 0 then -1 else yAdj / 400
  let yoe := yAdj - era * 400
  let mp := (m + 9) % 12
  let doy := (153 * mp + 2) / 5 + d - 1
  let doe := yoe * 365 + yoe / 4 - yoe / 100 + doy
  era * 146097 + doe - 719468

/-- Model of `chrono::DateTime::parse_from_rfc3339(s)` followed by
`.timestamp()`: Unix seconds on success, `none` on malformed input. -/
def parseRfc3339 (s : String) : Option Int := do
  let (y, cs) ← parse4 s.toList
  let cs ← expectChar '-' cs
  let (mo, cs) ← parse2 cs
  let cs ← expectChar '-' cs
  let (d, cs) ← parse2 cs
  let cs ←
    match cs with
    | 'T' :: r => some r
    | 't' :: r => some r
    | _ => none
  let (h, cs) ← parse2 cs
  let cs ← expectChar ':' cs
  let (mi, cs) ← parse2 cs
  let cs ← expectChar ':' cs
  let (se, cs) ← parse2 cs
  let cs ← skipFrac cs
  let off ← parseOffset cs
  if 1 ≤ mo ∧ mo ≤ 12 ∧ 1 ≤ d ∧ d ≤ daysInMonth y mo ∧ h ≤ 23 ∧ mi ≤ 59 ∧ se ≤ 60 then
    some (daysFromCivil (y : Int) (mo : Int) (d : Int) * 86400 +
      (h : Int) * 3600 + (mi : Int) * 60 + (min se 59 : Nat) - off)
  else
    none

/-- `parse_rfc3339_timestamp` (`fetcher/jsonl/parser.rs:8-13`): parse via
chrono and take `.timestamp()`; failures become
`InvalidBundleFormat("Invalid RFC3339 timestamp: <chrono error>")`.  The
chrono error display (external crate) is abstracted to a fixed placeholder;
the wrapping prefix is the source's. -/
def parse_rfc3339_timestamp (s : String) : Except VerificationError Int :=
  match parseRfc3339 s with
  | some t => .ok t
  | none => .error (.invalidBundleFormat "Invalid RFC3339 timestamp: parse error")

structure CertificateAuthority where
  uri : String
  cert_chain : JsonlCertChain
  valid_for : ValidityPeriod
  deriving DecidableEq, Repr

structure TrustedRoot where
  certificate_authorities : List CertificateAuthority
  timestamp_authorities : List CertificateAuthority
  deriving DecidableEq, Repr

/-- `types::certificate::CertificateChain`. -/
structure CertificateChain where
  leaf : Bytes
  intermediates : List Bytes
  root : Bytes
  deriving DecidableEq, Repr

/-- `types::certificate::FulcioInstance`. -/
inductive FulcioInstance where
  | gitHub
  | publicGood
  deriving DecidableEq, Repr

/-- `FulcioInstance::trust_bundle_url`. -/
def FulcioInstance.trust_bundle_url : FulcioInstance → String
  | .gitHub => "https://fulcio.githubapp.com/api/v2/trustBundle"
  | .publicGood => "https://fulcio.sigstore.dev/api/v2/trustBundle"

/-- The `{:?}` (Debug) rendering of a `FulcioInstance`, used in the
no-authority error message. -/
def FulcioInstance.debugStr : FulcioInstance → String
  | .gitHub => "GitHub"
  | .publicGood => "PublicGood"

/-- Strip the longest run of leading copies of `p`; models
`str::trim_start_matches`. -/
def dropPfxOpt : List Char → List Char → Option (List Char)
  | [], s => some s
  | _ :: _, [] => none
  | a :: as, b :: bs => if a == b then dropPfxOpt as bs else none

/-- Fuelled stripping loop: each successful strip of a non-empty pattern
shortens the list, so `s.length` steps of fuel always suffice. -/
def trimStartFuel (p : List Char) : Nat → List Char → List Char
  | 0, s => s
  | fuel + 1, s =>
    match dropPfxOpt p s with
    | some rest => if rest.length < s.length then trimStartFuel p fuel rest else s
    | none => s

def trimStartList (p s : List Char) : List Char := trimStartFuel p s.length s

/-- The domain the selector matches against:
`expected_uri.trim_start_matches("https://").split('/').next().unwrap()`
(`fetcher/jsonl/parser.rs:75`); `.next()` on `split('/')` is the segment
before the first `/`. -/
def expectedCaDomain (inst : FulcioInstance) : String :=
  String.mk
    ((trimStartList "https://".toList inst.trust_bundle_url.toList).takeWhile
      (fun c => c != '/'))

/-- The best-match update of the selector loop
(`fetcher/jsonl/parser.rs:93-99`): replace only on a strictly greater
start. -/
def updateBest (best : Option (JsonlCertChain × Int)) (ca : CertificateAuthority)
    (start : Int) : Option (JsonlCertChain × Int) :=
  match best with
  | none => some (ca.cert_chain, start)
  | some (_, best_start) =>
    if start > best_start then some (ca.cert_chain, start) else best

/-- One iteration of the selector loop (`fetcher/jsonl/parser.rs:72-103`):
non-matching URIs and missing starts are skipped; a present start (and, once
`start ≤ t`, a present end) is parsed with `?`, so a malformed string aborts
the whole selection; out-of-window authorities are skipped; survivors update
the running best. -/
def selectStep (domain : String) (t : Int) (best : Option (JsonlCertChain × Int))
    (ca : CertificateAuthority) : Except VerificationError (Option (JsonlCertChain × Int)) :=
  if strContains ca.uri domain then
    match ca.valid_for.start with
    | none => .ok best
    | some start_str =>
      match parse_rfc3339_timestamp start_str with
      | .error e => .error e
      | .ok start =>
        if t < start then .ok best
        else
          match ca.valid_for.endTime with
          | some end_str =>
            match parse_rfc3339_timestamp end_str with
            | .error e => .error e
            | .ok endv =>
              if t > endv then .ok best
              else .ok (updateBest best ca start)
          | none => .ok (updateBest best ca start)
  else .ok best

/-- The inner `for ca in &root.certificate_authorities` loop, threading the
running best and propagating parse errors. -/
def selectLoop (domain : String) (t : Int) :
    List CertificateAuthority → Option (JsonlCertChain × Int) →
      Except VerificationError (Option (JsonlCertChain × Int))
  | [], best => .ok best
  | ca :: rest, best =>
    match selectStep domain t best ca with
    | .error e => .error e
    | .ok best' => selectLoop domain t rest best'

/-- The outer `for root in roots` loop. -/
def selectRoots (domain : String) (t : Int) :
    List TrustedRoot → Option (JsonlCertChain × Int) →
      Except VerificationError (Option (JsonlCertChain × Int))
  | [], best => .ok best
  | root :: rest, best =>
    match selectLoop domain t root.certificate_authorities best with
    | .error e => .error e
    | .ok best' => selectRoots domain t rest best'

/-- `extract_cert_chain_from_authority` (`fetcher/jsonl/parser.rs:190-230`). -/
def extract_cert_chain_from_authority (cert_chain : JsonlCertChain) :
    Except VerificationError CertificateChain :=
  if cert_chain.certificates.isEmpty then
    .error (.invalidBundleFormat "Certificate chain is empty")
  else
    match decodeHashes (cert_chain.certificates.map (·.raw_bytes)) with
    | none => .error (.invalidBundleFormat "Failed to decode certificate")
    | some der_certs =>
      if der_certs.length = 1 then
        .ok { leaf := [], intermediates := [], root := der_certs.headD [] }
      else
        .ok { leaf := [], intermediates := der_certs.dropLast, root := der_certs.getLastD [] }

/-- `select_certificate_authority` (`fetcher/jsonl/parser.rs:64-112`). -/
def select_certificate_authority (roots : List TrustedRoot) (inst : FulcioInstance)
    (timestamp : Int) : Except VerificationError CertificateChain :=
  let domain := expectedCaDomain inst
  match selectRoots domain timestamp roots none with
  | .error e => .error e
  | .ok (some (cert_chain, _)) => extract_cert_chain_from_authority cert_chain
  | .ok none =>
    .error (.invalidBundleFormat
      ("No valid certificate authority found for instance " ++ inst.debugStr ++
        " at timestamp " ++ toString timestamp))

/-! Claim-side selection rule (written from the claim's words): among the
survivors — the matching authorities in first-seen order — the winner is the
one with the latest `start`, ties broken in favour of the first-seen. -/

/-- The survival test: URI contains the expected domain, a `start` is present
and parses with `start ≤ t`, and when an `end` is present it parses with
`t ≤ end`. -/
def caMatches (domain : String) (t : Int) (ca : CertificateAuthority) : Bool :=
  strContains ca.uri domain &&
    match ca.valid_for.start with
    | none => false
    | some s =>
      match parse_rfc3339_timestamp s with
      | .error _ => false
      | .ok start =>
        decide (start ≤ t) &&
          match ca.valid_for.endTime with
          | none => true
          | some e =>
            match parse_rfc3339_timestamp e with
            | .error _ => false
            | .ok endv => decide (t ≤ endv)

/-- The parsed `start` of a surviving authority (survivors always carry one
that parses). -/
def startOf (ca : CertificateAuthority) : Int :=
  match ca.valid_for.start with
  | none => 0
  | some s =>
    match parse_rfc3339_timestamp s with
    | .ok v => v
    | .error _ => 0

/-- The pure step the fallible loop performs when no parse aborts: survivors
update the running best, everything else is skipped. -/
def selectStepP (domain : String) (t : Int) (best : Option (JsonlCertChain × Int))
    (ca : CertificateAuthority) : Option (JsonlCertChain × Int) :=
  if caMatches domain t ca then updateBest best ca (startOf ca) else best

/-- The exact no-abort condition of the Rust loop for one authority: if its
URI matches and a `start` is present, the start parses; and if moreover the
parsed start is `≤ t` and an `end` is present, the end parses.  (An authority
whose start lies in the future is skipped before its end is ever parsed.) -/
def caParseClean (domain : String) (t : Int) (ca : CertificateAuthority) : Bool :=
  !(strContains ca.uri domain) ||
    match ca.valid_for.start with
    | none => true
    | some s =>
      match parse_rfc3339_timestamp s with
      | .error _ => false
      | .ok start =>
        if t < start then true
        else
          match ca.valid_for.endTime with
          | none => true
          | some e =>
            match parse_rfc3339_timestamp e with
            | .error _ => false
            | .ok _ => true

/-- Latest `start` among a list of authorities. -/
def maxStart : List CertificateAuthority → Option Int
  | [] => none
  | ca :: rest =>
    match maxStart rest with
    | none => some (startOf ca)
    | some m => some (max (startOf ca) m)

/-- The authorities the claim says are considered, in first-seen order. -/
def caSurvivors (roots : List TrustedRoot) (inst : FulcioInstance) (t : Int) :
    List CertificateAuthority :=
  (roots.flatMap (·.certificate_authorities)).filter (caMatches (expectedCaDomain inst) t)

/-- The claim's winner: the first survivor whose `start` is the latest. -/
def claimCaWinner (survivors : List CertificateAuthority) : Option CertificateAuthority :=
  match maxStart survivors with
  | none => none
  | some m => survivors.find? (fun ca => startOf ca == m)

/-! ## DSSE payload → in-toto Statement (`parser/bundle.rs`, `types/dsse.rs`)

`serde_json::from_slice::<Statement>` is split into the crate's text-level
JSON parser (an oracle, external code) and the derived `Deserialize`
behaviour of the structs in `types/dsse.rs`, modelled below.  JSON values are
a small inductive; `HashMap<String, String>` becomes an association list
(serde's duplicate-field rejection is outside the model). -/

inductive Json where
  | null
  | bool (b : Bool)
  | num (n : Int)
  | str (s : String)
  | arr (elems : List Json)
  | obj (fields : List (String × Json))
  deriving Repr

/-- Look up an object field by name (derived deserializers ignore unknown
fields and read the known ones by name). -/
def Json.getField (j : Json) (name : String) : Option Json :=
  match j with
  | .obj fields => (fields.find? (fun f => f.1 == name)).map (·.2)
  | _ => none

def Json.asString : Json → Option String
  | .str s => some s
  | _ => none

/-- `types::dsse::Subject`. -/
structure Subject where
  name : String
  digest : List (String × String)
  deriving DecidableEq, Repr

/-- `types::dsse::Statement` (`_type` is rendered `statement_type` as in the
Rust struct). -/
structure Statement where
  statement_type : String
  subject : List Subject
  predicate_type : String
  predicate : Json
  deriving Repr

/-- Derived deserialization of `digest: HashMap<String, String>`: an object
whose values are all strings. -/
def digestFromJson : Json → Option (List (String × String))
  | .obj fields =>
    fields.foldr
      (fun f acc =>
        match acc, f.2 with
        | some tail, .str v => some ((f.1, v) :: tail)
        | _, _ => none)
      (some [])
  | _ => none

/-- Derived `Deserialize` for `Subject`: required fields `name`, `digest`. -/
def Subject.fromJson (j : Json) : Option Subject :=
  match (j.getField "name").bind Json.asString with
  | none => none
  | some n =>
    match (j.getField "digest").bind digestFromJson with
    | none => none
    | some d => some ⟨n, d⟩

def subjectsFromJson : Json → Option (List Subject)
  | .arr elems => elems.mapM Subject.fromJson
  | _ => none

/-- Derived `Deserialize` for `Statement`: required fields `_type`,
`subject`, `predicateType`, `predicate`; no constraint on digests. -/
def Statement.fromJson (j : Json) : Option Statement :=
  match (j.getField "_type").bind Json.asString with
  | none => none
  | some t =>
    match (j.getField "subject").bind subjectsFromJson with
    | none => none
    | some subj =>
      match (j.getField "predicateType").bind Json.asString with
      | none => none
      | some pt =>
        match j.getField "predicate" with
        | none => none
        | some p => some ⟨t, subj, pt, p⟩

/-- Derived `Serialize` for `Subject` (canonical field order). -/
def Subject.toJson (s : Subject) : Json :=
  .obj [("name", .str s.name), ("digest", .obj (s.digest.map (fun p => (p.1, Json.str p.2))))]

/-- Derived `Serialize` for `Statement` (canonical field order). -/
def Statement.toJson (st : Statement) : Json :=
  .obj [("_type", .str st.statement_type),
        ("subject", .arr (st.subject.map Subject.toJson)),
        ("predicateType", .str st.predicate_type),
        ("predicate", st.predicate)]

/-- `Statement::get_subject_digest` (`types/dsse.rs:21-25`). -/
def Statement.get_subject_digest (st : Statement) (algorithm : String) : Option String :=
  st.subject.head?.bind (fun s => (s.digest.find? (fun p => p.1 == algorithm)).map (·.2))

/-- `parser::bundle::parse_dsse_payload`: base64-decode the payload, then
`serde_json::from_slice::<Statement>` (text parse = the `jsonParse` oracle,
derived deserialization = `Statement.fromJson`). -/
def parse_dsse_payload (jsonParse : Bytes → Option Json) (envelope : DsseEnvelope) :
    Except VerificationError Statement :=
  match base64Decode envelope.payload with
  | none => .error (.invalidBundleFormat "invalid base64")
  | some payload_bytes =>
    match jsonParse payload_bytes with
    | none => .error (.invalidBundleFormat "invalid JSON")
    | some j =>
      match Statement.fromJson j with
      | none => .error (.invalidBundleFormat "invalid Statement")
      | some st => .ok st

/-! ## Certificate chain verification (`verifier/certificate.rs`) -/

/-- Result of a Rust function that can also panic. -/
inductive PResult (ε α : Type) where
  | ok (a : α)
  | err (e : ε)
  | panicked
  deriving DecidableEq, Repr

/-- The two external-crate ingredients of chain verification. -/
structure CertOracles where
  /-- `x509_parser::X509Certificate::from_der` (external crate): DER bytes to
  a parsed certificate or an error message. -/
  parseDer : Bytes → Except String X509Cert
  /-- The cryptographic core of `verify_cert_signature`:
  `PublicKey::from_certificate(issuer)` then
  `public_key.verify_signature(cert.tbs, cert.signature)`.
  `crypto/signature.rs` is declared in `crypto/mod.rs` but absent from the
  tree; modelled from the spec (§4.3) as an opaque check with an error
  message. -/
  cryptoVerify : X509Cert → X509Cert → Except String Unit

/-- `parser::certificate::parse_der_certificate`. -/
def parse_der_certificate (O : CertOracles) (der : Bytes) : Except CertificateError X509Cert :=
  match O.parseDer der with
  | .ok c => .ok c
  | .error m => .error (.parseError m)

/-- `verifier::certificate::verify_cert_signature`: both the key extraction
and the signature check map their error into `ChainVerificationFailed`. -/
def verify_cert_signature (O : CertOracles) (cert issuer : X509Cert) :
    Except CertificateError Unit :=
  match O.cryptoVerify cert issuer with
  | .ok _ => .ok ()
  | .error m => .error (.chainVerificationFailed m)

/-- The `for der in &chain.intermediates` parsing loop. -/
def parseIntermediates (O : CertOracles) : List Bytes → Except CertificateError (List X509Cert)
  | [] => .ok []
  | d :: rest =>
    match parse_der_certificate O d with
    | .error e => .error e
    | .ok c =>
      match parseIntermediates O rest with
      | .error e => .error e
      | .ok cs => .ok (c :: cs)

/-- The `for i in 0..intermediates.len()-1` loop: each intermediate is
verified against its successor. -/
def verifyIntermediateChain (O : CertOracles) : List X509Cert → Except CertificateError Unit
  | a :: b :: rest =>
    (match verify_cert_signature O a b with
     | .error e => .error e
     | .ok _ => verifyIntermediateChain O (b :: rest))
  | _ => .ok ()

/-- `types::result::CertificateChainHashes`. -/
structure CertificateChainHashes where
  leaf : Bytes
  intermediates : List Bytes
  root : Bytes
  deriving DecidableEq, Repr

/-- Modelled from the spec: the `Display` rendering of a `VerificationError`
(`error.rs` is absent from the tree); only its use as a `ParseError` payload
matters, and no claim depends on the text. -/
def verrString : VerificationError → String
  | .invalidBundleFormat m => "Invalid bundle format: " ++ m
  | _ => "verification error"

/-- Modelled from the spec: the `Display` rendering of a `CertificateError`;
no claim depends on the text. -/
def certErrString : CertificateError → String
  | .parseError m => "Certificate parse error: " ++ m
  | .unknownIssuer cn => "Unknown issuer: " ++ cn
  | .trustBundleFetch => "Failed to fetch trust bundle"
  | .chainVerificationFailed m => "Chain verification failed: " ++ m
  | .signingTimeOutsideValidity _ _ _ => "Signing time outside certificate validity"

/-- `verifier::certificate::verify_certificate_chain` (the two-argument
function in the tree).  `intermediate_x509[0]` on line 43 is an unchecked
index: when the trust bundle carries no intermediates the function panics,
rendered here as `.panicked`. -/
def verify_certificate_chain (O : CertOracles) (bundle : SigstoreBundle)
    (trust_bundle : CertificateChain) :
    PResult CertificateError (CertificateChain × CertificateChainHashes) :=
  match decode_base64 bundle.verification_material.certificate.raw_bytes with
  | .error e => .err (.parseError (verrString e))
  | .ok leaf_der =>
    let chain : CertificateChain :=
      { leaf := leaf_der, intermediates := trust_bundle.intermediates,
        root := trust_bundle.root }
    match parse_der_certificate O chain.leaf with
    | .error e => .err e
    | .ok leaf_x509 =>
      match parseIntermediates O chain.intermediates with
      | .error e => .err e
      | .ok intermediate_x509 =>
        match parse_der_certificate O chain.root with
        | .error e => .err e
        | .ok root_x509 =>
          match intermediate_x509 with
          | [] => .panicked
          | i0 :: _ =>
            match verify_cert_signature O leaf_x509 i0 with
            | .error e => .err e
            | .ok _ =>
              match verifyIntermediateChain O intermediate_x509 with
              | .error e => .err e
              | .ok _ =>
                match
                  (match intermediate_x509.getLast? with
                   | none => Except.ok ()
                   | some last => verify_cert_signature O last root_x509) with
                | .error e => .err e
                | .ok _ =>
                  match verify_cert_signature O root_x509 root_x509 with
                  | .error e => .err e
                  | .ok _ =>
                    .ok (chain,
                      { leaf := sha256 chain.leaf,
                        intermediates := chain.intermediates.map sha256,
                        root := sha256 chain.root })

/-! ## Orchestrator (`lib.rs::verify_bundle_internal`, `types/result.rs`) -/

/-- `types::certificate::OidcIdentity`. -/
structure OidcIdentity where
  issuer : Option String
  subject : Option String
  workflow_ref : Option String
  repository : Option String
  event_name : Option String
  deriving DecidableEq, Repr

/-- `types::result::VerificationResult` (`signing_time` in Unix seconds). -/
structure VerificationResult where
  certificate_hashes : CertificateChainHashes
  signing_time : Int
  subject_digest : Bytes
  oidc_identity : Option OidcIdentity
  deriving DecidableEq, Repr

/-- `types::result::VerificationOptions`. -/
structure VerificationOptions where
  expected_digest : Option Bytes
  verify_rekor : Bool
  allow_insecure_sct : Bool
  expected_issuer : Option String
  expected_subject : Option String
  deriving DecidableEq, Repr

/-- The `#[derive(Default)]` value of `VerificationOptions`
(`types/result.rs:26`): every `Option` is `None` and every `bool` is `false`
— in particular `verify_rekor` defaults to `false`. -/
def VerificationOptions.default : VerificationOptions :=
  { expected_digest := none, verify_rekor := false, allow_insecure_sct := false,
    expected_issuer := none, expected_subject := none }

/-- The steps of `verify_bundle_internal` whose implementations are not in
the tree, abstracted as oracles. -/
structure Oracles where
  certO : CertOracles
  /-- `serde_json`'s text-level parser (external crate). -/
  jsonParse : Bytes → Option Json
  /-- `verifier::subject::verify_subject_digest`: declared in
  `verifier/mod.rs` but `verifier/subject.rs` is absent from the tree.
  Modelled from the spec (§4.10 step 1): produces the subject digest,
  comparing against the expected digest when one is supplied. -/
  verifySubjectDigest : Statement → Option Bytes → Except VerificationError Bytes
  /-- The one-argument `verify_certificate_chain` called at `lib.rs:87`; the
  tree only holds a two-argument variant, so the called function is absent.
  Modelled from the spec (§4.10 step 3): verify the chain, return it with
  its hashes. -/
  verifyChain :
    SigstoreBundle → Except CertificateError (CertificateChain × CertificateChainHashes)
  /-- `verifier::signature::verify_dsse_signature`: declared in
  `verifier/mod.rs` but `verifier/signature.rs` is absent from the tree.
  Modelled from the spec (§4.3, §4.10 step 5). -/
  verifyDsse : DsseEnvelope → CertificateChain → Except VerificationError Unit

/-- `lib.rs::verify_bundle_internal` (`lib.rs:74-109`).  Note the `TODO`
at `lib.rs:100`: the OIDC identity is never extracted, `oidc_identity` is
hard-coded `None`, and `options.expected_issuer` / `expected_subject` are
never read. -/
def verify_bundle_internal (O : Oracles) (bundle : SigstoreBundle)
    (options : VerificationOptions) : Except VerificationError VerificationResult :=
  match parse_dsse_payload O.jsonParse bundle.dsse_envelope with
  | .error e => .error e
  | .ok statement =>
    match O.verifySubjectDigest statement options.expected_digest with
    | .error e => .error e
    | .ok subject_digest =>
      match get_signing_time bundle with
      | .error e => .error e
      | .ok signing_time =>
        match O.verifyChain bundle with
        | .error e => .error (.certificate e)
        | .ok (chain, certificate_hashes) =>
          match parse_der_certificate O.certO chain.leaf with
          | .error e => .error (.invalidBundleFormat (certErrString e))
          | .ok leaf_cert =>
            match verify_signing_time_in_validity signing_time leaf_cert with
            | .error e => .error (.certificate e)
            | .ok _ =>
              match O.verifyDsse bundle.dsse_envelope chain with
              | .error e => .error e
              | .ok _ =>
                match verify_transparency_log bundle (!options.verify_rekor) with
                | .error e => .error e
                | .ok _ =>
                  .ok { certificate_hashes := certificate_hashes,
                        signing_time := signing_time,
                        subject_digest := subject_digest,
                        oidc_identity := none }

/-- The claim-side rendering of "the transparency-log verification step is
skipped": `verify_bundle_internal` with step 5 removed. -/
def verify_bundle_internal_noTlog (O : Oracles) (bundle : SigstoreBundle)
    (options : VerificationOptions) : Except VerificationError VerificationResult :=
  match parse_dsse_payload O.jsonParse bundle.dsse_envelope with
  | .error e => .error e
  | .ok statement =>
    match O.verifySubjectDigest statement options.expected_digest with
    | .error e => .error e
    | .ok subject_digest =>
      match get_signing_time bundle with
      | .error e => .error e
      | .ok signing_time =>
        match O.verifyChain bundle with
        | .error e => .error (.certificate e)
        | .ok (chain, certificate_hashes) =>
          match parse_der_certificate O.certO chain.leaf with
          | .error e => .error (.invalidBundleFormat (certErrString e))
          | .ok leaf_cert =>
            match verify_signing_time_in_validity signing_time leaf_cert with
            | .error e => .error (.certificate e)
            | .ok _ =>
              match O.verifyDsse bundle.dsse_envelope chain with
              | .error e => .error e
              | .ok _ =>
                .ok { certificate_hashes := certificate_hashes,
                      signing_time := signing_time,
                      subject_digest := subject_digest,
                      oidc_identity := none }

/-- The claim-side fold amended at one point: the subtree-size successor is
the `u64` successor, `(n + 1) % 2^64`, rather than the unbounded `n + 1`.
This differs from `claimFold` only when `n = 2^64 - 1`. -/
def claimFoldW (h : Bytes) (i n : Nat) : List Bytes → Option Bytes
  | [] => some h
  | p :: rest =>
    if n ≤ 1 then none
    else
      let parent :=
        if i % 2 = 0 ∧ i + 1 < n then sha256 (0x01 :: (h ++ p))
        else sha256 (0x01 :: (p ++ h))
      claimFoldW parent (i / 2) ((n + 1) % 2 ^ 64 / 2) rest

/-- For the C3 counterexample: an arbitrary 32-byte leaf hash. -/
def c3Leaf : Bytes := List.replicate 32 0

/-- For the C3 counterexample: an arbitrary 32-byte proof hash. -/
def c3ProofHash : Bytes := List.replicate 32 17

/-- For the C3 counterexample: the root the claim's (unwrapped) fold reaches
from `c3Leaf` at index 0 in a tree of size `2^64 - 1` with two proof
hashes. -/
def c3Root : Bytes :=
  sha256 (0x01 :: (sha256 (0x01 :: (c3Leaf ++ c3ProofHash)) ++ c3ProofHash))

/-- For C2 (failing input): a bundle whose verification material holds a
non-empty `rfc3161_timestamps` list and no transparency-log entry. -/
def rfc3161OnlyBundle : SigstoreBundle :=
  { media_type := "application/vnd.dev.sigstore.bundle.v0.3+json",
    verification_material :=
      { timestamp_verification_data := some ⟨some [⟨"AAAA"⟩]⟩,
        certificate := ⟨""⟩, tlog_entries := none },
    dsse_envelope := ⟨"", "", [⟨""⟩]⟩ }

/-- For C2: the same bundle with both an RFC 3161 timestamp and a
transparency-log entry whose integrated time is `1732068373`. -/
def bothTimestampsBundle : SigstoreBundle :=
  { media_type := "application/vnd.dev.sigstore.bundle.v0.3+json",
    verification_material :=
      { timestamp_verification_data := some ⟨some [⟨"AAAA"⟩]⟩,
        certificate := ⟨""⟩,
        tlog_entries := some [⟨none, "1732068373", none, none, ""⟩] },
    dsse_envelope := ⟨"", "", [⟨""⟩]⟩ }

/-- For C6: a statement whose only subject digest is `sha512` — no `sha256`
anywhere. -/
def c6Stmt : Statement :=
  { statement_type := "https://in-toto.io/Statement/v1",
    subject := [⟨"artifact.bin", [("sha512", "00ff")]⟩],
    predicate_type := "https://slsa.dev/provenance/v1",
    predicate := .null }

/-- For C6: a text-level JSON parser oracle that yields the canonical JSON of
`c6Stmt`. -/
def c6JsonParse : Bytes → Option Json := fun _ => some c6Stmt.toJson

/-- For C6: an envelope with an empty (hence base64-valid) payload. -/
def c6Envelope : DsseEnvelope := ⟨"", "application/vnd.in-toto+json", [⟨""⟩]⟩

/-- For C1/C5: certificate oracles that parse every DER blob into a
certificate valid from 0 to 4000000000 and accept every signature. -/
def c1CertO : CertOracles :=
  { parseDer := fun der => .ok ⟨der, 0, 4000000000⟩,
    cryptoVerify := fun _ _ => .ok () }

/-- For C1/C5: a well-formed statement carrying a `sha256` digest. -/
def c1Statement : Statement :=
  { statement_type := "https://in-toto.io/Statement/v1",
    subject := [⟨"artifact.bin", [("sha256", "ab")]⟩],
    predicate_type := "https://slsa.dev/provenance/v1",
    predicate := .null }

/-- For C1/C5: oracles making every spec-modelled step succeed. -/
def c1Oracles : Oracles :=
  { certO := c1CertO,
    jsonParse := fun _ => some c1Statement.toJson,
    verifySubjectDigest := fun _ _ => .ok [],
    verifyChain := fun _ => .ok (⟨[], [], []⟩, ⟨[], [], []⟩),
    verifyDsse := fun _ _ => .ok () }

/-- For C1: a tlog entry whose inclusion promise does not base64-decode —
the transparency check errs on it whenever it actually runs. -/
def c1Entry : TransparencyLogEntry :=
  { log_index := none, integrated_time := "1732068373",
    inclusion_promise := some ⟨"!!!"⟩, inclusion_proof := none,
    canonicalized_body := "" }

/-- For C1/C5: a bundle holding `c1Entry` as its only tlog entry. -/
def c1Bundle : SigstoreBundle :=
  { media_type := "application/vnd.dev.sigstore.bundle.v0.3+json",
    verification_material := ⟨none, ⟨""⟩, some [c1Entry]⟩,
    dsse_envelope := ⟨"", "", [⟨""⟩]⟩ }

/-- For C1/C5: the verification result the pipeline produces on `c1Bundle`
with the `c1Oracles`. -/
def c1Result : VerificationResult :=
  { certificate_hashes := ⟨[], [], []⟩, signing_time := 1732068373,
    subject_digest := [], oidc_identity := none }

/-- For C7 (scenario S6): a GitHub certificate authority with the given
RFC 3339 start and certificate payload. -/
def s6Ca (startStr : String) (payload : String) : CertificateAuthority :=
  { uri := "https://fulcio.githubapp.com",
    cert_chain := ⟨[⟨payload⟩]⟩,
    valid_for := ⟨some startStr, none⟩ }

/-- For C7 (scenario S6): two GitHub CAs valid at `t = 1720000000`, starting
at Unix seconds 1690000000 and 1700000000. -/
def s6Roots : List TrustedRoot :=
  [⟨[s6Ca "2023-07-22T04:26:40Z" "aGk=", s6Ca "2023-11-14T22:13:20Z" "eW8="], []⟩]

/-- For the C7 counterexample: a URI-matching authority whose `start` string
is not a date at all. -/
def c7BadCa : CertificateAuthority :=
  { uri := "https://fulcio.githubapp.com",
    cert_chain := ⟨[⟨"aGk="⟩]⟩,
    valid_for := ⟨some "not-a-date", none⟩ }

/-- For the C7 counterexample: a perfectly valid surviving authority listed
after the malformed one. -/
def c7GoodCa : CertificateAuthority :=
  { uri := "https://fulcio.githubapp.com",
    cert_chain := ⟨[⟨"eW8="⟩]⟩,
    valid_for := ⟨some "2023-11-14T22:13:20Z", none⟩ }

/-- For the C7 counterexample: the trusted roots holding both. -/
def c7BadRoots : List TrustedRoot := [⟨[c7BadCa, c7GoodCa], []⟩]

/-! # Theorems for the claims -/

/-- C8: `verify_signing_time_in_validity` succeeds exactly when the signing
time lies in the closed interval `[not_before, not_after]` (both endpoints
included), and otherwise fails with `SigningTimeOutsideValidity` carrying the
signing time and both validity bounds. -/
theorem verify_signing_time_in_validity_spec (signing_time : Int) (cert : X509Cert) :
    (verify_signing_time_in_validity signing_time cert = .ok () ↔
      cert.not_before ≤ signing_time ∧ signing_time ≤ cert.not_after) ∧
    (¬(cert.not_before ≤ signing_time ∧ signing_time ≤ cert.not_after) →
      verify_signing_time_in_validity signing_time cert =
        .error (.signingTimeOutsideValidity signing_time cert.not_before cert.not_after)) := by
  unfold verify_signing_time_in_validity
  constructor
  · split
    · simp only [reduceCtorEq, false_iff]
      omega
    · simp only [true_iff]
      omega
  · intro hout
    split
    · rfl
    · omega

/-- Closed witness for C8: at signing time 15 the window `[10, 20]` accepts,
and at signing time 5 it rejects with the three values in the error. -/
theorem verify_signing_time_in_validity_spec_witness :
    verify_signing_time_in_validity 15 ⟨[], 10, 20⟩ = .ok () ∧
    verify_signing_time_in_validity 5 ⟨[], 10, 20⟩ =
      .error (.signingTimeOutsideValidity 5 10 20) :=
  ⟨(verify_signing_time_in_validity_spec 15 ⟨[], 10, 20⟩).1.mpr (by decide),
   (verify_signing_time_in_validity_spec 5 ⟨[], 10, 20⟩).2 (by decide)⟩

/-- C9: `validate_bundle` rejects every bundle whose media type does not begin
with `application/vnd.dev.sigstore.bundle`, with exactly
`InvalidBundleFormat("Unsupported media type: <mediaType>")` — for media type
`"invalid"` exactly that message — and accepts media type
`application/vnd.dev.sigstore.bundle.v0.3+json` with a non-empty signature
list. -/
theorem validate_bundle_media_type_gate (bundle : SigstoreBundle) :
    (strStarts bundle.media_type "application/vnd.dev.sigstore.bundle" = false →
      validate_bundle bundle =
        .error (.invalidBundleFormat ("Unsupported media type: " ++ bundle.media_type))) ∧
    (bundle.media_type = "invalid" →
      validate_bundle bundle =
        .error (.invalidBundleFormat "Unsupported media type: invalid")) ∧
    (bundle.media_type = "application/vnd.dev.sigstore.bundle.v0.3+json" →
      bundle.dsse_envelope.signatures ≠ [] →
      validate_bundle bundle = .ok ()) := by
  refine ⟨fun hpfx => ?_, fun hmt => ?_, fun hmt hsig => ?_⟩
  · simp [validate_bundle, hpfx]
  · unfold validate_bundle
    rw [hmt]
    rfl
  · have hne : bundle.dsse_envelope.signatures.isEmpty = false := by
      cases h : bundle.dsse_envelope.signatures with
      | nil => exact absurd h hsig
      | cons a l => rfl
    unfold validate_bundle
    rw [hmt, hne]
    rfl

/-- Closed witness for C9: a concrete bundle with media type `"invalid"` is
rejected with exactly the claimed message, and the same bundle with the v0.3
media type and one signature is accepted. -/
theorem validate_bundle_media_type_gate_witness :
    validate_bundle
        ⟨"invalid", ⟨none, ⟨""⟩, none⟩, ⟨"", "", [⟨""⟩]⟩⟩ =
      .error (.invalidBundleFormat "Unsupported media type: invalid") ∧
    validate_bundle
        ⟨"application/vnd.dev.sigstore.bundle.v0.3+json", ⟨none, ⟨""⟩, none⟩, ⟨"", "", [⟨""⟩]⟩⟩ =
      .ok () :=
  ⟨(validate_bundle_media_type_gate _).2.1 rfl,
   (validate_bundle_media_type_gate _).2.2 rfl (by simp)⟩

/-- C10: with verification enabled (`skip_verification = false`),
`verify_transparency_log` inspects only the first tlog entry — replacing the
remaining entries changes nothing — and when that first entry carries neither
an inclusion proof nor an inclusion promise the check returns `Ok` without
verifying any inclusion material. -/
theorem verify_transparency_log_first_entry_only (mt : String) (vm : VerificationMaterial)
    (env : DsseEnvelope) (entry : TransparencyLogEntry) (rest : List TransparencyLogEntry) :
    (verify_transparency_log ⟨mt, { vm with tlog_entries := some (entry :: rest) }, env⟩ false =
      verify_transparency_log ⟨mt, { vm with tlog_entries := some [entry] }, env⟩ false) ∧
    (entry.inclusion_proof = none → entry.inclusion_promise = none →
      verify_transparency_log ⟨mt, { vm with tlog_entries := some (entry :: rest) }, env⟩ false =
        .ok ()) := by
  constructor
  · rfl
  · intro hproof hpromise
    simp [verify_transparency_log, checkInclusionProof, checkInclusionPromise, hproof, hpromise]

/-- Closed witness for C10: a concrete first entry with no inclusion proof and
no inclusion promise makes the (enabled) transparency check pass, with a
second entry present that would not decode. -/
theorem verify_transparency_log_first_entry_only_witness :
    verify_transparency_log
        ⟨"", ⟨none, ⟨""⟩, some [⟨none, "1732068373", none, none, ""⟩,
                               ⟨none, "nonsense", none, none, "!!!"⟩]⟩, ⟨"", "", []⟩⟩
        false = .ok () :=
  (verify_transparency_log_first_entry_only "" ⟨none, ⟨""⟩, none⟩ ⟨"", "", []⟩
      ⟨none, "1732068373", none, none, ""⟩ [⟨none, "nonsense", none, none, "!!!"⟩]).2 rfl rfl

/-- The code's folding loop agrees with the claim-side fold amended with the
`u64`-wrapped successor, error value fixed to `InclusionProofFailed`. -/
theorem merkleFold_eq_claimFoldW : ∀ (ps : List Bytes) (h : Bytes) (i n : Nat),
    merkleFold h i n ps =
      (match claimFoldW h i n ps with
       | some x => Except.ok x
       | none => Except.error TransparencyError.inclusionProofFailed) := by
  intro ps
  induction ps with
  | nil => intro h i n; rfl
  | cons p rest ih =>
    intro h i n
    by_cases hn : n ≤ 1
    · simp [merkleFold, claimFoldW, hn]
    · by_cases hcond : i % 2 = 0 ∧ i + 1 < n
      · simp [merkleFold, claimFoldW, hn, hcond.1, hcond.2, ih]
      · have hb : (i % 2 == 0 && decide (i + 1 < n)) = false := by
          rcases Nat.lt_or_ge i.succ n with hlt | hge
          · have : i % 2 ≠ 0 := fun hz => hcond ⟨hz, hlt⟩
            simp [this]
          · simp [Nat.not_lt.mpr hge]
        simp [merkleFold, claimFoldW, hn, hcond, hb, ih]

/-- C3 (amended): `verify_inclusion_proof` returns `Ok` exactly when
`log_index < tree_size` and the RFC 6962 fold with the `u64`-wrapped
subtree-size successor reaches exactly the root hash; every failure is
`InclusionProofFailed`; for `log_index ≥ tree_size` it fails regardless of
the proof; and for a single-leaf tree with empty proof it succeeds iff the
leaf hash equals the root hash. -/
theorem verify_inclusion_proof_spec (leaf_hash : Bytes) (log_index tree_size : Nat)
    (proof_hashes : List Bytes) (root_hash : Bytes) :
    (verify_inclusion_proof leaf_hash log_index tree_size proof_hashes root_hash = .ok () ↔
      log_index < tree_size ∧
        claimFoldW leaf_hash log_index tree_size proof_hashes = some root_hash) ∧
    (∀ e, verify_inclusion_proof leaf_hash log_index tree_size proof_hashes root_hash =
        .error e → e = .inclusionProofFailed) ∧
    (tree_size ≤ log_index →
      verify_inclusion_proof leaf_hash log_index tree_size proof_hashes root_hash =
        .error .inclusionProofFailed) ∧
    (tree_size = 1 → log_index = 0 → proof_hashes = [] →
      (verify_inclusion_proof leaf_hash log_index tree_size proof_hashes root_hash = .ok () ↔
        leaf_hash = root_hash)) := by
  unfold verify_inclusion_proof
  rw [merkleFold_eq_claimFoldW]
  refine ⟨?_, ?_, ?_, ?_⟩
  · by_cases hge : log_index ≥ tree_size
    · simp [hge, Nat.not_lt.mpr hge]
    · cases hfold : claimFoldW leaf_hash log_index tree_size proof_hashes with
      | none => simp [hge, hfold]
      | some x =>
        by_cases hx : x = root_hash
        · simp [hge, hfold, hx, Nat.lt_of_not_le (fun hle => hge hle)]
        · simp [hge, hfold, hx]
  · intro e he
    by_cases hge : log_index ≥ tree_size
    · simp [hge] at he
      exact he.symm
    · cases hfold : claimFoldW leaf_hash log_index tree_size proof_hashes with
      | none => simp [hge, hfold] at he; exact he.symm
      | some x =>
        by_cases hx : x = root_hash
        · simp [hge, hfold, hx] at he
        · simp [hge, hfold, hx] at he
          exact he.symm
  · intro hle
    simp [hle]
  · intro h1 h0 hps
    subst h1; subst h0; subst hps
    simp [claimFoldW]

/-- Closed witness for C3: the single-leaf tree (S1) verifies, and an
out-of-bounds index (S2) fails. -/
theorem verify_inclusion_proof_spec_witness :
    verify_inclusion_proof (List.replicate 32 1) 0 1 [] (List.replicate 32 1) = .ok () ∧
    verify_inclusion_proof (List.replicate 32 1) 5 3 [] (List.replicate 32 2) =
      .error .inclusionProofFailed :=
  ⟨((verify_inclusion_proof_spec (List.replicate 32 1) 0 1 [] (List.replicate 32 1)).2.2.2
      rfl rfl rfl).mpr rfl,
   (verify_inclusion_proof_spec (List.replicate 32 1) 5 3 [] (List.replicate 32 2)).2.2.1
      (by decide)⟩

/-- C3 counterexample: at `tree_size = 2^64 - 1` (a valid `u64`) with two
proof hashes, the claim's fold — which sets `n := (n+1)/2` with unbounded
`n+1` — accepts the root above, but the code's `u64` successor wraps
`(2^64-1)+1` to `0`, so `verify_inclusion_proof` rejects: the claim, as
stated, is false at this input. -/
theorem verify_inclusion_proof_claim_counterexample :
    claimAccepts c3Leaf 0 (2 ^ 64 - 1) [c3ProofHash, c3ProofHash] c3Root ∧
    verify_inclusion_proof c3Leaf 0 (2 ^ 64 - 1) [c3ProofHash, c3ProofHash] c3Root =
      .error .inclusionProofFailed := by
  constructor
  · refine ⟨by norm_num, ?_⟩
    show claimFold c3Leaf 0 (2 ^ 64 - 1) [c3ProofHash, c3ProofHash] = some c3Root
    have hone : ¬ ((2 : Nat) ^ 64 - 1 ≤ 1) := by norm_num
    have hcond : (0 : Nat) % 2 = 0 ∧ 0 + 1 < 2 ^ 64 - 1 := by norm_num
    have hhalf : ((2 : Nat) ^ 64 - 1 + 1) / 2 = 2 ^ 63 := by norm_num
    have hone2 : ¬ ((2 : Nat) ^ 63 ≤ 1) := by norm_num
    have hcond2 : (0 : Nat) % 2 = 0 ∧ 0 + 1 < 2 ^ 63 := by norm_num
    simp only [claimFold, hone, if_false, if_pos hcond, hhalf, Nat.zero_div,
      if_pos hcond2, hone2]
    rfl
  · unfold verify_inclusion_proof
    have hge : ¬ (0 ≥ 2 ^ 64 - 1) := by norm_num
    have hone : ¬ ((2 : Nat) ^ 64 - 1 ≤ 1) := by norm_num
    have hwrap : ((2 : Nat) ^ 64 - 1 + 1) % 2 ^ 64 / 2 = 0 := by norm_num
    simp only [merkleFold, hge, if_false, hone, hwrap]
    norm_num

/-- C2 (evaluation at the failing input): `get_signing_time` ignores RFC 3161
timestamps entirely — its RFC 3161 branch is commented out — so an
RFC 3161-only bundle fails with `NoTimestamp` (not `Rfc3161NotSupported`),
and when both an RFC 3161 timestamp and a tlog entry are present the resolved
time is the integrated time (not the RFC 3161 genTime). -/
theorem get_signing_time_ignores_rfc3161 :
    get_signing_time rfc3161OnlyBundle = .error (.timestamp .noTimestamp) ∧
    get_signing_time bothTimestampsBundle = .ok 1732068373 := by
  constructor
  · rfl
  · rfl

/-- C4: `verify_certificate_chain` on a trust chain with zero intermediates
panics (index out of bounds on `intermediate_x509[0]`) whenever the leaf
decodes and the leaf and root certificates parse — it never reaches the
leaf-against-root signature check the claim describes. -/
theorem verify_certificate_chain_empty_intermediates_panics (O : CertOracles)
    (bundle : SigstoreBundle) (tb : CertificateChain) (leaf_der : Bytes)
    (leafC rootC : X509Cert)
    (hinter : tb.intermediates = [])
    (hdec : decode_base64 bundle.verification_material.certificate.raw_bytes = .ok leaf_der)
    (hleaf : O.parseDer leaf_der = .ok leafC)
    (hroot : O.parseDer tb.root = .ok rootC) :
    verify_certificate_chain O bundle tb = .panicked := by
  unfold verify_certificate_chain
  rw [hdec]
  simp [hinter, parseIntermediates, parse_der_certificate, hleaf, hroot]

/-- Closed witness for C4: concrete oracles that parse everything and accept
every signature, a bundle whose leaf decodes, and a trust chain with zero
intermediates — the function still panics. -/
theorem verify_certificate_chain_empty_intermediates_panics_witness :
    verify_certificate_chain
        ⟨fun der => .ok ⟨der, 0, 0⟩, fun _ _ => .ok ()⟩
        ⟨"", ⟨none, ⟨""⟩, none⟩, ⟨"", "", []⟩⟩
        ⟨[], [], []⟩ = .panicked :=
  verify_certificate_chain_empty_intermediates_panics
    ⟨fun der => .ok ⟨der, 0, 0⟩, fun _ _ => .ok ()⟩
    ⟨"", ⟨none, ⟨""⟩, none⟩, ⟨"", "", []⟩⟩
    ⟨[], [], []⟩ [] ⟨[], 0, 0⟩ ⟨[], 0, 0⟩ rfl rfl rfl rfl

/-- Helper: derived digest deserialization inverts derived serialization. -/
theorem digestFromJson_roundtrip (d : List (String × String)) :
    digestFromJson (.obj (d.map (fun p => (p.1, Json.str p.2)))) = some d := by
  induction d with
  | nil => rfl
  | cons p d ih =>
    simp only [digestFromJson, List.map_cons, List.foldr_cons] at ih ⊢
    rw [ih]

/-- Helper: derived `Subject` deserialization inverts serialization. -/
theorem subjectFromJson_toJson (s : Subject) : Subject.fromJson s.toJson = some s := by
  have hd := digestFromJson_roundtrip s.digest
  simp [Subject.fromJson, Subject.toJson, Json.getField, List.find?, Json.asString, hd]

/-- Helper: derived subject-list deserialization inverts serialization. -/
theorem subjectsFromJson_roundtrip (l : List Subject) :
    subjectsFromJson (.arr (l.map Subject.toJson)) = some l := by
  induction l with
  | nil => rfl
  | cons s l ih =>
    simp only [subjectsFromJson, List.map_cons, List.mapM_cons] at ih ⊢
    rw [subjectFromJson_toJson]
    rw [ih]
    rfl

/-- Helper: derived `Statement` deserialization inverts serialization —
in particular it imposes no condition on the digests. -/
theorem statementFromJson_toJson (st : Statement) : Statement.fromJson st.toJson = some st := by
  have hs := subjectsFromJson_roundtrip st.subject
  simp [Statement.fromJson, Statement.toJson, Json.getField, List.find?, Json.asString, hs]

/-- C6 (amended): `parse_dsse_payload` base64-decodes the payload and parses
it as a `Statement`, but performs no digest check: every well-formed
statement — with or without a `sha256` subject digest — parses successfully.
The `sha256` requirement is enforced only by the later subject-digest step. -/
theorem parse_dsse_payload_no_digest_gate (st : Statement) (jsonParse : Bytes → Option Json)
    (envelope : DsseEnvelope) (payload_bytes : Bytes)
    (hdec : base64Decode envelope.payload = some payload_bytes)
    (hjson : jsonParse payload_bytes = some st.toJson) :
    parse_dsse_payload jsonParse envelope = .ok st := by
  simp only [parse_dsse_payload, hdec, hjson, statementFromJson_toJson]

/-- Closed witness for C6 (amended): the sha512-only statement `c6Stmt`
parses successfully. -/
theorem parse_dsse_payload_no_digest_gate_witness :
    parse_dsse_payload c6JsonParse c6Envelope = .ok c6Stmt :=
  parse_dsse_payload_no_digest_gate c6Stmt c6JsonParse c6Envelope [] rfl rfl

/-- C6 counterexample: a statement with no subject carrying a `sha256` digest
for which `parse_dsse_payload` succeeds — the parse does not fail as the
claim states; `get_subject_digest "sha256"` merely returns `none`. -/
theorem parse_dsse_payload_claim_counterexample :
    parse_dsse_payload c6JsonParse c6Envelope = .ok c6Stmt ∧
    c6Stmt.get_subject_digest "sha256" = none := by
  exact ⟨rfl, rfl⟩

/-- C1 (amended): `verify_rekor` defaults to `false` (via
`#[derive(Default)]`), so for every bundle verified with default-constructed
`VerificationOptions` the transparency-log verification step is skipped:
the pipeline coincides with the pipeline with step 5 removed. -/
theorem verify_rekor_default_skips_transparency (O : Oracles) (bundle : SigstoreBundle) :
    VerificationOptions.default.verify_rekor = false ∧
    verify_bundle_internal O bundle VerificationOptions.default =
      verify_bundle_internal_noTlog O bundle VerificationOptions.default := by
  refine ⟨rfl, ?_⟩
  unfold verify_bundle_internal verify_bundle_internal_noTlog
  have htlog : verify_transparency_log bundle (!VerificationOptions.default.verify_rekor) =
      .ok () := rfl
  rw [htlog]

/-- C1 counterexample: with default-constructed options, a bundle whose only
tlog entry has an invalid inclusion promise — on which the transparency check
fails whenever it runs — still verifies end to end, and `verify_rekor` is
`false`, not `true`: the transparency step was skipped, refuting the claim. -/
theorem verify_rekor_default_claim_counterexample :
    VerificationOptions.default.verify_rekor = false ∧
    verify_bundle_internal c1Oracles c1Bundle VerificationOptions.default = .ok c1Result ∧
    verify_transparency_log c1Bundle false =
      .error (.transparency .signedEntryTimestampInvalid) := by
  refine ⟨rfl, ?_, ?_⟩ <;> rfl

/-- C5: `verify_bundle_internal` never reads `expected_issuer` or
`expected_subject` — blanking them changes nothing — and every successful
result carries `oidc_identity = None`: no OIDC identity is extracted,
compared, or reported (the `TODO` at `lib.rs:100`). -/
theorem verify_bundle_ignores_identity_expectations (O : Oracles) (bundle : SigstoreBundle)
    (options : VerificationOptions) :
    verify_bundle_internal O bundle options =
      verify_bundle_internal O bundle
        { options with expected_issuer := none, expected_subject := none } ∧
    (∀ r, verify_bundle_internal O bundle options = .ok r → r.oidc_identity = none) := by
  constructor
  · rfl
  · intro r h
    unfold verify_bundle_internal at h
    repeat' split at h
    all_goals simp_all
    subst h
    rfl

/-- Closed witness for C5: with an expected issuer set that matches nothing,
the concrete pipeline still succeeds (no `IdentityMismatch`), and the
result's identity is `None`. -/
theorem verify_bundle_ignores_identity_expectations_witness :
    verify_bundle_internal c1Oracles c1Bundle
        { VerificationOptions.default with
          expected_issuer := some "https://token.actions.githubusercontent.com" } =
      .ok c1Result ∧
    c1Result.oidc_identity = none :=
  ⟨rfl,
   (verify_bundle_ignores_identity_expectations c1Oracles c1Bundle
      { VerificationOptions.default with
        expected_issuer := some "https://token.actions.githubusercontent.com" }).2
     c1Result rfl⟩

/-- Helper: a surviving authority carries a `start` string that parses to
exactly `startOf`. -/
theorem caMatches_start (domain : String) (t : Int) (ca : CertificateAuthority)
    (h : caMatches domain t ca = true) :
    ∃ s, ca.valid_for.start = some s ∧ parse_rfc3339_timestamp s = .ok (startOf ca) := by
  unfold caMatches at h
  cases hs : ca.valid_for.start with
  | none => simp [hs] at h
  | some s =>
    simp only [hs] at h
    cases hp : parse_rfc3339_timestamp s with
    | error e => simp [hp] at h
    | ok v =>
      refine ⟨s, rfl, ?_⟩
      simp [startOf, hs, hp]

/-- Helper: a list with a maximal start has a first element attaining it. -/
theorem maxStart_find (l : List CertificateAuthority) (m : Int) (h : maxStart l = some m) :
    ∃ w, l.find? (fun ca => startOf ca == m) = some w := by
  induction l generalizing m with
  | nil => simp [maxStart] at h
  | cons ca l ih =>
    rw [maxStart] at h
    cases hml : maxStart l with
    | none =>
      rw [hml] at h
      injection h with h
      exact ⟨ca, by simp [List.find?, h]⟩
    | some ml =>
      rw [hml] at h
      injection h with h
      by_cases hca : startOf ca = m
      · exact ⟨ca, by simp [List.find?, hca]⟩
      · have hm : m = ml := by
          rcases max_cases (startOf ca) ml with ⟨heq, _⟩ | ⟨heq, _⟩ <;> omega
        obtain ⟨w, hw⟩ := ih ml hml
        refine ⟨w, ?_⟩
        have hne : (startOf ca == m) = false := by
          rw [beq_eq_false_iff_ne]
          exact hca
        simp only [List.find?, hne]
        rw [hm]
        exact hw

/-- Helper: only the empty list has no claimed winner. -/
theorem claimCaWinner_eq_none (l : List CertificateAuthority)
    (h : claimCaWinner l = none) : l = [] := by
  cases l with
  | nil => rfl
  | cons ca l =>
    exfalso
    unfold claimCaWinner at h
    cases hms : maxStart (ca :: l) with
    | none =>
      rw [maxStart] at hms
      cases hml : maxStart l <;> rw [hml] at hms <;> cases hms
    | some m =>
      obtain ⟨w, hw⟩ := maxStart_find _ _ hms
      rw [hms] at h
      have h' : List.find? (fun ca => startOf ca == m) (ca :: l) = none := h
      rw [hw] at h'
      cases h'

/-- Helper: the winner's start is the maximal start. -/
theorem claimCaWinner_start (l : List CertificateAuthority) (w : CertificateAuthority)
    (h : claimCaWinner l = some w) : maxStart l = some (startOf w) := by
  unfold claimCaWinner at h
  cases hms : maxStart l with
  | none => rw [hms] at h; cases h
  | some m =>
    rw [hms] at h
    have hpred := List.find?_some h
    have : startOf w = m := by
      simpa using hpred
    rw [this]

/-- Helper: recursion of the claimed winner over a cons cell. -/
theorem claimCaWinner_cons (ca : CertificateAuthority) (l : List CertificateAuthority) :
    claimCaWinner (ca :: l) =
      match claimCaWinner l with
      | none => some ca
      | some w => if startOf w > startOf ca then some w else some ca := by
  cases hw : claimCaWinner l with
  | none =>
    have hl : l = [] := claimCaWinner_eq_none l hw
    subst hl
    simp [claimCaWinner, maxStart, List.find?]
  | some w =>
    have hm : maxStart l = some (startOf w) := claimCaWinner_start l w hw
    have hfind : l.find? (fun x => startOf x == startOf w) = some w := by
      unfold claimCaWinner at hw
      rw [hm] at hw
      exact hw
    unfold claimCaWinner
    rw [maxStart, hm]
    by_cases hgt : startOf w > startOf ca
    · have hmax : max (startOf ca) (startOf w) = startOf w := max_eq_right (le_of_lt hgt)
      have hne : (startOf ca == startOf w) = false := by
        rw [beq_eq_false_iff_ne]
        omega
      simp only [hmax, List.find?, hne]
      rw [hfind]
      simp [hgt]
    · have hle : startOf w ≤ startOf ca := le_of_not_lt hgt
      have hmax : max (startOf ca) (startOf w) = startOf ca := max_eq_left hle
      simp only [hmax, List.find?, beq_self_eq_true]
      simp [hgt]

/-- Helper: the pure running-best fold over survivors, started from an
existing best, keeps the first-seen latest start only when it strictly beats
the accumulator. -/
theorem selectFold_acc (domain : String) (t : Int) (l : List CertificateAuthority)
    (hall : ∀ x ∈ l, caMatches domain t x = true) :
    ∀ (c : JsonlCertChain) (bs : Int),
      l.foldl (selectStepP domain t) (some (c, bs)) =
        (match claimCaWinner l with
         | none => some (c, bs)
         | some w => if startOf w > bs then some (w.cert_chain, startOf w) else some (c, bs)) := by
  induction l with
  | nil => intro c bs; rfl
  | cons ca l ih =>
    intro c bs
    have hca : caMatches domain t ca = true := hall ca (List.mem_cons_self ca l)
    have hall' : ∀ x ∈ l, caMatches domain t x = true := fun x hx =>
      hall x (List.mem_cons_of_mem ca hx)
    have hstep : selectStepP domain t (some (c, bs)) ca =
        if startOf ca > bs then some (ca.cert_chain, startOf ca) else some (c, bs) := by
      simp [selectStepP, hca, updateBest]
    rw [List.foldl_cons, hstep, claimCaWinner_cons]
    by_cases hgtb : startOf ca > bs
    · rw [if_pos hgtb, ih hall' ca.cert_chain (startOf ca)]
      cases hw : claimCaWinner l with
      | none => simp [hgtb]
      | some w =>
        by_cases hws : startOf w > startOf ca
        · have hwb : startOf w > bs := lt_trans hgtb hws
          simp [hws, hwb]
        · simp [hws, hgtb]
    · rw [if_neg hgtb, ih hall' c bs]
      cases hw : claimCaWinner l with
      | none => simp [hgtb]
      | some w =>
        by_cases hws : startOf w > startOf ca
        · simp [hws]
        · have hwb : ¬ (startOf w > bs) := by omega
          simp [hws, hwb, hgtb]

/-- Helper: the pure fold from an empty best returns exactly the claimed
winner's chain and start. -/
theorem selectFold_none (domain : String) (t : Int) (l : List CertificateAuthority)
    (hall : ∀ x ∈ l, caMatches domain t x = true) :
    l.foldl (selectStepP domain t) none =
      (claimCaWinner l).map (fun w => (w.cert_chain, startOf w)) := by
  cases l with
  | nil => rfl
  | cons ca l =>
    have hca : caMatches domain t ca = true := hall ca (List.mem_cons_self ca l)
    have hall' : ∀ x ∈ l, caMatches domain t x = true := fun x hx =>
      hall x (List.mem_cons_of_mem ca hx)
    have hstep : selectStepP domain t none ca = some (ca.cert_chain, startOf ca) := by
      simp [selectStepP, hca, updateBest]
    rw [List.foldl_cons, hstep, selectFold_acc domain t l hall' ca.cert_chain (startOf ca),
      claimCaWinner_cons]
    cases hw : claimCaWinner l with
    | none => simp
    | some w => by_cases hws : startOf w > startOf ca <;> simp [hws]

/-- Helper: non-matching authorities do not move the pure fold — it equals
the fold over the filtered survivors. -/
theorem selectFold_filter (domain : String) (t : Int) (l : List CertificateAuthority) :
    ∀ b, l.foldl (selectStepP domain t) b =
      (l.filter (caMatches domain t)).foldl (selectStepP domain t) b := by
  induction l with
  | nil => intro b; rfl
  | cons ca l ih =>
    intro b
    cases hca : caMatches domain t ca with
    | false =>
      have hskip : selectStepP domain t b ca = b := by
        simp [selectStepP, hca]
      rw [List.foldl_cons, hskip, List.filter_cons, if_neg (by simp [hca])]
      exact ih b
    | true =>
      rw [List.foldl_cons, List.filter_cons, if_pos (by simp [hca]), List.foldl_cons]
      exact ih _

/-- Helper: on a parse-clean authority the fallible step never aborts and
agrees with the pure step. -/
theorem selectStep_clean (domain : String) (t : Int) (best : Option (JsonlCertChain × Int))
    (ca : CertificateAuthority) (h : caParseClean domain t ca = true) :
    selectStep domain t best ca = .ok (selectStepP domain t best ca) := by
  unfold caParseClean at h
  unfold selectStep selectStepP caMatches
  cases huri : strContains ca.uri domain with
  | false => simp [huri]
  | true =>
    rw [huri] at h
    simp only [Bool.not_true, Bool.false_or] at h
    cases hs : ca.valid_for.start with
    | none => simp [huri, hs]
    | some s =>
      simp only [hs] at h
      cases hp : parse_rfc3339_timestamp s with
      | error e => simp [hp] at h
      | ok v =>
        simp only [hp] at h
        have hst : startOf ca = v := by simp [startOf, hs, hp]
        by_cases hlt : t < v
        · have hnle : ¬ (v ≤ t) := by omega
          simp [huri, hs, hp, hlt, hnle]
        · rw [if_neg hlt] at h
          have hvle : v ≤ t := by omega
          cases he : ca.valid_for.endTime with
          | none => simp [huri, hs, hp, hlt, he, hvle, hst]
          | some e =>
            simp only [he] at h
            cases hpe : parse_rfc3339_timestamp e with
            | error e2 => simp [hpe] at h
            | ok w =>
              by_cases hgt : t > w
              · have hnle : ¬ (t ≤ w) := by omega
                simp [huri, hs, hp, hlt, he, hpe, hgt, hvle, hnle]
              · have hle : t ≤ w := by omega
                simp [huri, hs, hp, hlt, he, hpe, hgt, hvle, hle, hst]

/-- Helper: over a parse-clean list the fallible loop never aborts and is the
pure fold. -/
theorem selectLoop_clean (domain : String) (t : Int) :
    ∀ (l : List CertificateAuthority) (best : Option (JsonlCertChain × Int)),
      (∀ ca ∈ l, caParseClean domain t ca = true) →
      selectLoop domain t l best = .ok (l.foldl (selectStepP domain t) best) := by
  intro l
  induction l with
  | nil => intro best _; rfl
  | cons ca l ih =>
    intro best hall
    have hca := hall ca (List.mem_cons_self ca l)
    have hall' : ∀ x ∈ l, caParseClean domain t x = true := fun x hx =>
      hall x (List.mem_cons_of_mem ca hx)
    rw [selectLoop, selectStep_clean domain t best ca hca, List.foldl_cons]
    exact ih _ hall'

/-- Helper: the fallible loop over a concatenation runs the pieces in
order. -/
theorem selectLoop_append (domain : String) (t : Int) (l1 l2 : List CertificateAuthority) :
    ∀ best, selectLoop domain t (l1 ++ l2) best =
      (match selectLoop domain t l1 best with
       | .error e => .error e
       | .ok best' => selectLoop domain t l2 best') := by
  induction l1 with
  | nil => intro best; rfl
  | cons ca l1 ih =>
    intro best
    rw [List.cons_append, selectLoop, selectLoop]
    cases selectStep domain t best ca with
    | error e => rfl
    | ok best' => exact ih best'

/-- Helper: the outer loop over the roots is the inner loop over the
flattened authority list. -/
theorem selectRoots_flatten (domain : String) (t : Int) :
    ∀ (roots : List TrustedRoot) (best : Option (JsonlCertChain × Int)),
      selectRoots domain t roots best =
        selectLoop domain t (roots.flatMap (·.certificate_authorities)) best := by
  intro roots
  induction roots with
  | nil => intro best; rfl
  | cons r rs ih =>
    intro best
    rw [selectRoots, List.flatMap_cons, selectLoop_append]
    cases selectLoop domain t r.certificate_authorities best with
    | error e => rfl
    | ok best' => exact ih best'

/-- C7 (amended): provided no considered authority aborts the RFC 3339
parsing — every URI-matching authority's present `start` parses, and, when
that start is `≤ t`, its present `end` parses — the selector considers
exactly the authorities whose URI contains the expected domain with a parsed
window covering `t`, rejects authorities missing a `start`, returns the
extracted chain of the survivor with the latest `start` (first-seen wins
ties), and with no survivor errs with an `InvalidBundleFormat` naming the
instance and timestamp.  Without that proviso a malformed date string aborts
the whole selection with the parse error instead. -/
theorem select_certificate_authority_spec (roots : List TrustedRoot) (inst : FulcioInstance)
    (t : Int)
    (hclean : ∀ ca ∈ roots.flatMap (·.certificate_authorities),
        caParseClean (expectedCaDomain inst) t ca = true) :
    (caSurvivors roots inst t = [] →
      select_certificate_authority roots inst t =
        .error (.invalidBundleFormat
          ("No valid certificate authority found for instance " ++ inst.debugStr ++
            " at timestamp " ++ toString t))) ∧
    (∀ w, claimCaWinner (caSurvivors roots inst t) = some w →
      select_certificate_authority roots inst t =
        extract_cert_chain_from_authority w.cert_chain) := by
  have hall : ∀ x ∈ caSurvivors roots inst t, caMatches (expectedCaDomain inst) t x = true :=
    fun x hx => (List.mem_filter.mp hx).2
  have hfold : (roots.flatMap (·.certificate_authorities)).foldl
      (selectStepP (expectedCaDomain inst) t) none =
      (claimCaWinner (caSurvivors roots inst t)).map (fun w => (w.cert_chain, startOf w)) := by
    rw [selectFold_filter]
    exact selectFold_none _ _ _ hall
  have hbest : selectRoots (expectedCaDomain inst) t roots none =
      .ok ((claimCaWinner (caSurvivors roots inst t)).map
        (fun w => (w.cert_chain, startOf w))) := by
    rw [selectRoots_flatten, selectLoop_clean _ _ _ _ hclean, hfold]
  constructor
  · intro hempty
    rw [hempty] at hbest
    simp only [select_certificate_authority, hbest]
    rfl
  · intro w hw
    rw [hw] at hbest
    simp only [select_certificate_authority, hbest]
    rfl

/-- C7 counterexample: a URI-matching GitHub authority whose `start` is
`"not-a-date"` sits before a perfectly valid survivor; the claim says the
survivor's chain is returned, but the selector aborts with the RFC 3339
parse error — which names neither the instance nor the timestamp. -/
theorem select_certificate_authority_claim_counterexample :
    caMatches (expectedCaDomain .gitHub) 1720000000 c7GoodCa = true ∧
    claimCaWinner (caSurvivors c7BadRoots .gitHub 1720000000) = some c7GoodCa ∧
    select_certificate_authority c7BadRoots .gitHub 1720000000 =
      .error (.invalidBundleFormat "Invalid RFC3339 timestamp: parse error") := by
  exact ⟨rfl, rfl, rfl⟩

/-- Closed witness for C7 (scenario S6): of two GitHub CAs valid at
`t = 1720000000` with starts 1690000000 and 1700000000 (as RFC 3339
strings), the selector returns the chain of the one starting at
1700000000. -/
theorem select_certificate_authority_spec_witness :
    select_certificate_authority s6Roots .gitHub 1720000000 =
      extract_cert_chain_from_authority (s6Ca "2023-11-14T22:13:20Z" "eW8=").cert_chain :=
  (select_certificate_authority_spec s6Roots .gitHub 1720000000 (by decide)).2
    (s6Ca "2023-11-14T22:13:20Z" "eW8=") (by decide)

end Sigstore
